import Mathlib

/-!
Verification of the torch_xla elementwise / type-conversion lowering layer
(src/torch_xla/csrc/convert_ops.cpp and src/torch_xla/csrc/elementwise.cpp).

The development is a shallow embedding: the graph-building functions are
embedded at two levels.
* A syntactic level (`XlaOp` below) records the instructions a function emits,
  for claims about instruction emission, operand kinds and fatal dispatch.
* A semantic level (`Sem` namespace) transcribes each elementwise operator to
  the scalar function it computes, for claims about computed values.  Floating
  values are idealised as rationals (or reals where a logarithm is needed),
  with an explicit NaN constructor where NaN behaviour matters; machine
  integers are bit patterns (`Nat` below an explicit power of two).
Host-side fatal checks (XLA_CHECK / XLA_ERROR, which abort the process) are
modelled by `Option`, `none` being the abort.
-/

namespace TorchXla

/-- Element kinds of the XLA value system (xla::PrimitiveType), restricted to
the kinds the shown code distinguishes. -/
inductive PrimitiveType where
  | PRED
  | S8
  | S16
  | S32
  | S64
  | U8
  | U16
  | U32
  | U64
  | F16
  | BF16
  | F32
  | F64
  | C64
  | C128
deriving DecidableEq, Repr

/-- Byte width of each kind (xla::ShapeUtil::ByteSizeOfPrimitiveType). -/
def byteSize : PrimitiveType → Nat
  | .PRED => 1
  | .S8 => 1
  | .S16 => 2
  | .S32 => 4
  | .S64 => 8
  | .U8 => 1
  | .U16 => 2
  | .U32 => 4
  | .U64 => 8
  | .F16 => 2
  | .BF16 => 2
  | .F32 => 4
  | .F64 => 8
  | .C64 => 8
  | .C128 => 16

/-- Signed integral kinds (xla::primitive_util::IsSignedIntegralType). -/
def isSignedIntegralType : PrimitiveType → Bool
  | .S8 => true
  | .S16 => true
  | .S32 => true
  | .S64 => true
  | _ => false

/-- Unsigned integral kinds (xla::primitive_util::IsUnsignedIntegralType). -/
def isUnsignedIntegralType : PrimitiveType → Bool
  | .U8 => true
  | .U16 => true
  | .U32 => true
  | .U64 => true
  | _ => false

/-- Integral kinds (xla::primitive_util::IsIntegralType): signed or unsigned,
the boolean kind PRED not included. -/
def isIntegralType (t : PrimitiveType) : Bool :=
  isSignedIntegralType t || isUnsignedIntegralType t

/-- Arithmetic shift right of a `w`-bit two's-complement bit pattern `x`
(with `x < 2 ^ w`) by `s` places: bits move down and the sign bit is
replicated into the vacated high positions.  This is the semantics of the
ShiftRightArithmetic instruction, which the shift operator on a signed
`xla::XlaOp` resolves to. -/
def ashr (w x s : Nat) : Nat :=
  if x < 2 ^ (w - 1) then x >>> s else (x >>> s) + (2 ^ w - 2 ^ (w - s))

/-- Bit-level transcription of `CreateRawMask`
(src/torch_xla/csrc/convert_ops.cpp, lines 18-30).  `size` and `narrow_size`
are byte counts and CHAR_BIT = 8.  The host value
`mask_value = (1 << narrow_size*8) - 1` is materialised as a scalar of kind
`ty` (hence reduced into the `size*8`-bit pattern space); for a signed kind
the mask is shifted to the top of the width and arithmetically shifted back,
replicating its sign bit. -/
def CreateRawMask (ty : PrimitiveType) (size narrow_size : Nat) : Nat :=
  let w := size * 8
  let mask_value := (1 <<< (narrow_size * 8)) - 1
  let mask := mask_value % 2 ^ w
  if isSignedIntegralType ty then
    let shift := (size - narrow_size) * 8
    ashr w ((mask <<< shift) % 2 ^ w) shift
  else
    mask

/-- Bit-level transcription of `ConvertData`
(src/torch_xla/csrc/convert_ops.cpp, lines 32-46), the raw-representation
masking step invoked by `ConvertToRaw` (lines 58-66).  The value `v` is a
`byteSize ty * 8`-bit two's-complement bit pattern.  If either kind is not
integral the value passes through.  Otherwise the fatal
`XLA_CHECK_GE(size, narrow_size)` aborts (modelled by `none`) when the second
kind is wider; equal widths pass through; a strictly narrower second kind is
masked with `CreateRawMask` via bitwise AND. -/
def ConvertData (v : Nat) (ty narrow_ty : PrimitiveType) : Option Nat :=
  if !(isIntegralType ty && isIntegralType narrow_ty) then some v
  else
    let size := byteSize ty
    let narrow_size := byteSize narrow_ty
    if size < narrow_size then none
    else if size = narrow_size then some v
    else some (v &&& CreateRawMask ty size narrow_size)

/-- Sign extension of a `narrow`-bit pattern `low` (with `low < 2 ^ narrow`)
into a `wide`-bit pattern: the high bits replicate bit `narrow - 1`. -/
def signExtendPat (narrow wide low : Nat) : Nat :=
  if low < 2 ^ (narrow - 1) then low else low + (2 ^ wide - 2 ^ narrow)

/-- Validity of a wide bit pattern `v` of kind `ty` as a representation of a
value of the narrow integral kind `narrow_ty`: for a signed kind the high
bits must be the sign extension of the low `byteSize narrow_ty * 8` bits, for
an unsigned kind the high bits must be zero. -/
def validRep (ty narrow_ty : PrimitiveType) (v : Nat) : Bool :=
  let w := byteSize ty * 8
  let n := byteSize narrow_ty * 8
  if isSignedIntegralType ty then
    decide (v < 2 ^ w) && decide (v = signExtendPat n w (v % 2 ^ n))
  else
    decide (v < 2 ^ n)

/-- Directions of the primitive comparison instruction (xla::Ne, xla::Eq,
xla::Ge, xla::Le, xla::Gt, xla::Lt). -/
inductive CmpDir where
  | ne
  | eq
  | ge
  | le
  | gt
  | lt
deriving DecidableEq, Repr

/-- Syntactic level of the embedding: an `xla::XlaOp` is a handle to a node of
the computation graph being built, so a value is identified with the tree of
instructions emitted to produce it.  Only the instructions the claims need are
modelled.  `param` stands for any pre-existing graph value, carrying the
element kind and shape the external shape inspector would report for it;
`scalar` is a constant injected by `XlaHelpers::ScalarValue` /  `xla::Zero`;
`cmp` carries the broadcast-dimension argument handed to the comparison
instruction. -/
inductive XlaOp where
  | param (id : Nat) (ty : PrimitiveType) (dims : List Nat)
  | scalar (v : ℚ) (ty : PrimitiveType)
  | convert (x : XlaOp) (toTy : PrimitiveType)
  | absOp (x : XlaOp)
  | mul (x y : XlaOp)
  | div (x y : XlaOp)
  | log1p (x : XlaOp)
  | exp (x : XlaOp)
  | select (c t f : XlaOp)
  | cmp (d : CmpDir) (x y : XlaOp) (bdims : List Nat)
deriving DecidableEq, Repr

/-- Modelled from the spec: the external shape/kind inspector
(`XlaHelpers::TypeOfXlaOp` / `ShapeHelper::ShapeOfXlaOp(..).element_type()`,
whose sources are not under src/) — "given an Abstract Value, returns its
shape ... and Numeric Kind".  The kind of each instruction's result follows
the XLA instruction set: comparisons produce PRED, a conversion produces its
target kind, arithmetic preserves the operand kind. -/
def tyOf : XlaOp → PrimitiveType
  | .param _ ty _ => ty
  | .scalar _ ty => ty
  | .convert _ toTy => toTy
  | .absOp x => tyOf x
  | .mul x _ => tyOf x
  | .div x _ => tyOf x
  | .log1p x => tyOf x
  | .exp x => tyOf x
  | .select _ t _ => tyOf t
  | .cmp _ _ _ _ => .PRED

/-- Modelled from the spec: the shape half of the external shape inspector.
Binary instructions produce the broadcast-joined shape, modelled as the
higher-rank operand shape. -/
def shapeOf : XlaOp → List Nat
  | .param _ _ dims => dims
  | .scalar _ _ => []
  | .convert x _ => shapeOf x
  | .absOp x => shapeOf x
  | .mul x y => if (shapeOf x).length < (shapeOf y).length then shapeOf y else shapeOf x
  | .div x y => if (shapeOf x).length < (shapeOf y).length then shapeOf y else shapeOf x
  | .log1p x => shapeOf x
  | .exp x => shapeOf x
  | .select _ t _ => shapeOf t
  | .cmp _ x y _ => if (shapeOf x).length < (shapeOf y).length then shapeOf y else shapeOf x

/-- Number of element-type-conversion instructions in a value's tree. -/
def convertCount : XlaOp → Nat
  | .param _ _ _ => 0
  | .scalar _ _ => 0
  | .convert x _ => convertCount x + 1
  | .absOp x => convertCount x
  | .mul x y => convertCount x + convertCount y
  | .div x y => convertCount x + convertCount y
  | .log1p x => convertCount x
  | .exp x => convertCount x
  | .select c t f => convertCount c + convertCount t + convertCount f
  | .cmp _ x y _ => convertCount x + convertCount y

/-- Number of absolute-value instructions in a value's tree. -/
def absCount : XlaOp → Nat
  | .param _ _ _ => 0
  | .scalar _ _ => 0
  | .convert x _ => absCount x
  | .absOp x => absCount x + 1
  | .mul x y => absCount x + absCount y
  | .div x y => absCount x + absCount y
  | .log1p x => absCount x
  | .exp x => absCount x
  | .select c t f => absCount c + absCount t + absCount f
  | .cmp _ x y _ => absCount x + absCount y

/-- Invariant of the data model: every primitive binary instruction in the
tree combines operands of one identical numeric kind, and every select has a
PRED predicate and branches of one kind. -/
def wellKinded : XlaOp → Bool
  | .param _ _ _ => true
  | .scalar _ _ => true
  | .convert x _ => wellKinded x
  | .absOp x => wellKinded x
  | .mul x y => wellKinded x && wellKinded y && decide (tyOf x = tyOf y)
  | .div x y => wellKinded x && wellKinded y && decide (tyOf x = tyOf y)
  | .log1p x => wellKinded x
  | .exp x => wellKinded x
  | .select c t f =>
      wellKinded c && wellKinded t && wellKinded f &&
      decide (tyOf c = PrimitiveType.PRED) && decide (tyOf t = tyOf f)
  | .cmp _ x y _ => wellKinded x && wellKinded y && decide (tyOf x = tyOf y)

/-- Transcription of `MaybeConvertTo` (src/torch_xla/csrc/convert_ops.cpp,
lines 92-96): identity when the value already has the requested kind, else a
single element-type conversion. -/
def MaybeConvertTo (input : XlaOp) (ty : PrimitiveType) : XlaOp :=
  if tyOf input ≠ ty then .convert input ty else input

/-- Transcription of `ConvertTo` (src/torch_xla/csrc/convert_ops.cpp,
lines 50-56): identity when the two kinds coincide, else a single
element-type-conversion instruction. -/
def ConvertTo (op : XlaOp) (fromTy toTy : PrimitiveType) : XlaOp :=
  if fromTy = toTy then op else .convert op toTy

/-- Enumeration order of kinds used by the modelled promotion join. -/
def kindOrder : PrimitiveType → Nat
  | .PRED => 0
  | .U8 => 1
  | .S8 => 2
  | .U16 => 3
  | .S16 => 4
  | .U32 => 5
  | .S32 => 6
  | .U64 => 7
  | .S64 => 8
  | .F16 => 9
  | .BF16 => 10
  | .F32 => 11
  | .F64 => 12
  | .C64 => 13
  | .C128 => 14

/-- Join of two kinds under the modelled promotion order. -/
def promoteKind (a b : PrimitiveType) : PrimitiveType :=
  if kindOrder a ≤ kindOrder b then b else a

/-- Modelled from the spec: `XlaHelpers::Promote` (helpers.cpp is not under
src/) — "given two Abstract Values of possibly different kinds/shapes, returns
a pair with a common kind and broadcast-compatible shape, applying the
backend's documented implicit-promotion rules".  The join picks the kind
later in a representative promotion order; the claims rely only on the pair
sharing one kind afterwards. -/
def Promote (x y : XlaOp) : XlaOp × XlaOp :=
  (MaybeConvertTo x (promoteKind (tyOf x) (tyOf y)),
   MaybeConvertTo y (promoteKind (tyOf x) (tyOf y)))

/-- Modelled from the spec: `XlaHelpers::getBroadcastDimensions` (helpers.cpp
is not under src/) — "given two Abstract Values, returns the dimension-index
list primitive instructions need to align shapes of differing rank": empty
when the ranks agree, else the trailing dimension indices of the higher rank
assigned to the lower-rank operand. -/
def getBroadcastDimensions (x y : XlaOp) : List Nat :=
  let rx := (shapeOf x).length
  let ry := (shapeOf y).length
  if rx = ry then []
  else (List.range (min rx ry)).map (fun i => max rx ry - min rx ry + i)

/-- Comparison-operator tags handed to `BuildComparisonOp`.  The source
dispatches over `c10::Symbol`, an open symbol space from the host framework;
the six recognised tags are modelled as constructors and every other symbol
by `other` with a numeric identity. -/
inductive CmpSymbol where
  | ne
  | eq
  | ge
  | le
  | gt
  | lt
  | other (id : Nat)
deriving DecidableEq, Repr

/-- Transcription of `BuildComparisonOp`
(src/torch_xla/csrc/elementwise.cpp, lines 34-53): the operands are promoted
first, then each recognised tag dispatches to its primitive comparison
instruction carrying the broadcast dimensions; the default branch is the
fatal `XLA_ERROR()` (modelled by `none`). -/
def BuildComparisonOp (kind : CmpSymbol) (lhs rhs : XlaOp) : Option XlaOp :=
  let p := Promote lhs rhs
  let l := p.1
  let r := p.2
  match kind with
  | .ne => some (.cmp .ne l r (getBroadcastDimensions l r))
  | .eq => some (.cmp .eq l r (getBroadcastDimensions l r))
  | .ge => some (.cmp .ge l r (getBroadcastDimensions l r))
  | .le => some (.cmp .le l r (getBroadcastDimensions l r))
  | .gt => some (.cmp .gt l r (getBroadcastDimensions l r))
  | .lt => some (.cmp .lt l r (getBroadcastDimensions l r))
  | .other _ => none

/-- Table of the claim: the primitive comparison direction each recognised
tag must dispatch to, `none` for an unrecognised tag. -/
def cmpDispatch : CmpSymbol → Option CmpDir
  | .ne => some .ne
  | .eq => some .eq
  | .ge => some .ge
  | .le => some .le
  | .gt => some .gt
  | .lt => some .lt
  | .other _ => none

/-- Transcription of `BuildAbs` (src/torch_xla/csrc/elementwise.cpp,
lines 319-325): an unsigned integral input passes through unchanged, any
other kind gets the primitive absolute-value instruction. -/
def BuildAbs (input : XlaOp) : XlaOp :=
  if isUnsignedIntegralType (tyOf input) then input else .absOp input

/-- Transcription of `BuildSoftplus` (src/torch_xla/csrc/elementwise.cpp,
lines 327-332): `select(input*beta > threshold, input,
log1p(exp(input*beta)) / beta)`, with no kind conversion applied to `beta`
or `threshold`. -/
def BuildSoftplus (input beta threshold : XlaOp) : XlaOp :=
  .select (.cmp .gt (.mul input beta) threshold [])
    input
    (.div (.log1p (.exp (.mul input beta))) beta)

/-- Transcription of `BuildLeakyReluBackward`
(src/torch_xla/csrc/elementwise.cpp, lines 230-237) at the syntactic level:
the slope is first normalised to the input's element kind with
`MaybeConvertTo`, then `select(input > 0, grad_output,
negative_slope * grad_output)`. -/
def BuildLeakyReluBackwardOp (grad_output input negative_slope : XlaOp) : XlaOp :=
  let slope := MaybeConvertTo negative_slope (tyOf input)
  let zero : XlaOp := .scalar 0 (tyOf input)
  .select (.cmp .gt input zero []) grad_output (.mul slope grad_output)

namespace Sem

/-- Scalar semantics of the helper `Between`
(src/torch_xla/csrc/elementwise.cpp, lines 18-30): conjunction of the two
comparisons built with `BuildComparisonOp(at::aten::ge, ...)` and
`BuildComparisonOp(at::aten::le, ...)`, so membership is non-strict at both
boundaries. -/
def Between (input min_val max_val : ℚ) : Bool :=
  decide (min_val ≤ input) && decide (input ≤ max_val)

/-- Scalar semantics of `BuildHardSwishBackward`
(src/torch_xla/csrc/elementwise.cpp, lines 128-141): the middle step selects
`grad_output * (0.5 + input/3)` where `Between input (-3) 3` holds and `0`
elsewhere, and the final select returns `grad_output` unmodified where
`input >= 3`. -/
def BuildHardSwishBackward (grad_output input : ℚ) : ℚ :=
  let stepone := if Between input (-3) 3 then grad_output * (1/2 + input / 3) else 0
  if 3 ≤ input then grad_output else stepone

/-- Reading of claim C3's middle branch, written from the spec's words
("strict at the boundaries, i.e. uses <3 and >-3") for comparison with the
source transcription above: the same formula with a strict membership
predicate. -/
def specStrictHardSwishBackward (grad_output input : ℚ) : ℚ :=
  let stepone :=
    if decide (-3 < input) && decide (input < 3) then
      grad_output * (1/2 + input / 3)
    else 0
  if 3 ≤ input then grad_output else stepone

/-- Scalar semantics of `BuildLeakyReluBackward`
(src/torch_xla/csrc/elementwise.cpp, lines 230-237):
`select(input > 0, grad_output, negative_slope * grad_output)` (the
`MaybeConvertTo` kind normalisation has no value-level effect). -/
def BuildLeakyReluBackward (grad_output input negative_slope : ℚ) : ℚ :=
  if 0 < input then grad_output else negative_slope * grad_output

/-- Transcription of `BuildLeakyRelu` (src/torch_xla/csrc/elementwise.cpp,
lines 180-182): the backward formula applied to the input in both operand
positions. -/
def BuildLeakyRelu (input negative_slope : ℚ) : ℚ :=
  BuildLeakyReluBackward input input negative_slope

/-- Scalar-list semantics of `BuildRrelu`
(src/torch_xla/csrc/elementwise.cpp, lines 184-210).  `rng` is the oracle for
`RngUniform`; its source (src/torch_xla/csrc/random.cpp) is not under src/,
so it is modelled from the spec: "draws a ... uniform noise tensor in
[lower, upper] from a supplied random seed value" — and the call site passes
the rank-0 shape `MakeShape(elem, {})`, so a single draw `rng lower upper` is
shared by every element.  In training mode
`noise = select(input > 0, one, slope)` and `output = input * noise`; in
evaluation mode the noise is a broadcast zero and the output is the leaky
ReLU with slope `(lower + upper) / 2`.  The pair is returned in the source's
positional order `{output, noise}`. -/
def BuildRrelu (input : List ℚ) (lower upper : ℚ) (training : Bool)
    (rng : ℚ → ℚ → ℚ) : List ℚ × List ℚ :=
  if training then
    let slope := rng lower upper
    let noise := input.map (fun x => if 0 < x then 1 else slope)
    let output := List.zipWith (· * ·) input noise
    (output, noise)
  else
    let negative_slope := (lower + upper) / 2
    let noise := input.map (fun _ => 0)
    let output := input.map (fun x => BuildLeakyRelu x negative_slope)
    (output, noise)

/-- Scalar of a real-valued element kind with an explicit NaN, for operators
whose claims involve NaN behaviour.  Non-NaN values are idealised as
rationals. -/
inductive SVal where
  | nan
  | num (q : ℚ)
deriving DecidableEq, Repr

/-- IEEE equality as computed by the xla::Eq comparison: NaN compares unequal
to everything, including itself. -/
def svalEq : SVal → SVal → Bool
  | .num a, .num b => decide (a = b)
  | _, _ => false

/-- IEEE inequality (xla::Ne): true whenever an operand is NaN. -/
def svalNe (a b : SVal) : Bool :=
  !(svalEq a b)

/-- IEEE greater-than (xla::Gt): false whenever an operand is NaN. -/
def svalGt : SVal → SVal → Bool
  | .num a, .num b => decide (b < a)
  | _, _ => false

/-- Semantics of the primitive xla::Sign instruction on real (non-complex)
kinds: NaN maps to NaN, otherwise the sign in {-1, 0, 1}. -/
def primSign : SVal → SVal
  | .nan => .nan
  | .num q => .num (if 0 < q then 1 else if q < 0 then -1 else 0)

/-- Kind after `ConvertToNumeric` (src/torch_xla/csrc/convert_ops.cpp, lines
68-80): a PRED value is converted to the device's unsigned-8-bit storage
kind, reported by the external resolver
`MaybeDowncastToXlaDeviceType(U8, device)` and passed here as `dev`; every
other kind passes through.  At the value level the conversion maps the PRED
values 0/1 to the numbers 0/1, which the `SVal` embedding already uses, so
only the kind changes. -/
def convertToNumericKind (dev ty : PrimitiveType) : PrimitiveType :=
  if ty = .PRED then dev else ty

/-- Scalar semantics of `BuildSign` (src/torch_xla/csrc/elementwise.cpp,
lines 306-317): on the numeric kind, an unsigned integral kind uses
`convert(x > 0)` in place of the primitive sign, and the final select
replaces the result by zero wherever `x != x`. -/
def BuildSign (dev ty : PrimitiveType) (x : SVal) : SVal :=
  let nty := convertToNumericKind dev ty
  let sign :=
    if isUnsignedIntegralType nty then
      if svalGt x (.num 0) then .num 1 else .num 0
    else primSign x
  if svalNe x x then .num 0 else sign

/-- Scalar semantics of `BuildLogit` (src/torch_xla/csrc/elementwise.cpp,
lines 416-431).  `logf` is the external primitive xla::Log.  With
`eps = none` the scalar `xla_eps` is the zero constant.  The call
`xla::Clamp(input, xla_eps, one - xla_eps)` has XLA semantics
`min(max(min_arg, operand), max_arg)` with `min_arg = input`,
`operand = xla_eps`, `max_arg = 1 - xla_eps`; the inner max is symmetric, so
the result is the input clamped to `[eps, 1 - eps]`.  The final select
replaces the result by NaN exactly where `input < 0` or `input > 1`. -/
def BuildLogit (logf : ℚ → ℚ) (input : ℚ) (eps : Option ℚ) : SVal :=
  let xla_eps := match eps with
    | some v => v
    | none => 0
  let clamped := min (max input xla_eps) (1 - xla_eps)
  let xla_log := logf (clamped / (1 - clamped))
  if decide (input < 0) || decide (1 < input) then .nan else .num xla_log

end Sem

/-- Concrete oracle honouring the uniform-range contract of `RngUniform`,
used by concrete instantiations: the midpoint of the requested range. -/
def midRng (l u : ℚ) : ℚ :=
  (l + u) / 2

/-! ## Helper lemmas -/

theorem byteSize_pos (t : PrimitiveType) : 1 ≤ byteSize t := by
  cases t <;> decide

theorem tyOf_MaybeConvertTo (x : XlaOp) (k : PrimitiveType) :
    tyOf (MaybeConvertTo x k) = k := by
  unfold MaybeConvertTo
  split_ifs with h
  · rfl
  · exact not_ne_iff.mp h

theorem wellKinded_MaybeConvertTo (x : XlaOp) (k : PrimitiveType) :
    wellKinded (MaybeConvertTo x k) = wellKinded x := by
  unfold MaybeConvertTo
  split_ifs <;> rfl

theorem createRawMask_unsigned (ty : PrimitiveType)
    (hs : isSignedIntegralType ty = false) (size narrow : Nat)
    (h : narrow < size) :
    CreateRawMask ty size narrow = 2 ^ (narrow * 8) - 1 := by
  have hlt : 2 ^ (narrow * 8) - 1 < 2 ^ (size * 8) := by
    have h1 : 2 ^ (narrow * 8) ≤ 2 ^ (size * 8) :=
      Nat.pow_le_pow_right (by norm_num) (by omega)
    have h2 : 0 < 2 ^ (narrow * 8) := Nat.pos_pow_of_pos _ (by norm_num)
    omega
  simp only [CreateRawMask, hs, Bool.false_eq_true, if_false,
    Nat.shiftLeft_eq, one_mul]
  exact Nat.mod_eq_of_lt hlt

theorem createRawMask_signed (ty : PrimitiveType)
    (hs : isSignedIntegralType ty = true) (size narrow : Nat)
    (h : narrow < size) (hn : 1 ≤ narrow) :
    CreateRawMask ty size narrow = 2 ^ (size * 8) - 1 := by
  have hmul : narrow * 8 < size * 8 := by omega
  have hsub : (size - narrow) * 8 = size * 8 - narrow * 8 := by omega
  have hmask : ((1 <<< (narrow * 8)) - 1) % 2 ^ (size * 8) =
      2 ^ (narrow * 8) - 1 := by
    rw [Nat.shiftLeft_eq, one_mul]
    have h1 : 2 ^ (narrow * 8) ≤ 2 ^ (size * 8) :=
      Nat.pow_le_pow_right (by norm_num) (by omega)
    have h2 : 0 < 2 ^ (narrow * 8) := Nat.pos_pow_of_pos _ (by norm_num)
    exact Nat.mod_eq_of_lt (by omega)
  have hexp : (size - narrow) * 8 + narrow * 8 = size * 8 := by omega
  have hshlval : (2 ^ (narrow * 8) - 1) * 2 ^ ((size - narrow) * 8) =
      2 ^ (size * 8) - 2 ^ ((size - narrow) * 8) := by
    rw [Nat.sub_mul, one_mul, ← pow_add]
    rw [Nat.add_comm ((size - narrow) * 8) (narrow * 8)] at hexp
    rw [hexp]
  have hshl : ((2 ^ (narrow * 8) - 1) <<< ((size - narrow) * 8)) % 2 ^ (size * 8) =
      2 ^ (size * 8) - 2 ^ ((size - narrow) * 8) := by
    rw [Nat.shiftLeft_eq, hshlval]
    have h2 : 0 < 2 ^ ((size - narrow) * 8) := Nat.pos_pow_of_pos _ (by norm_num)
    have h3 : 0 < 2 ^ (size * 8) := Nat.pos_pow_of_pos _ (by norm_num)
    exact Nat.mod_eq_of_lt (by omega)
  have hsmall : 2 ^ ((size - narrow) * 8) ≤ 2 ^ (size * 8 - 1) := by
    apply Nat.pow_le_pow_right (by norm_num)
    omega
  have hhalf : 2 ^ (size * 8 - 1) * 2 = 2 ^ (size * 8) := by
    rw [← pow_succ]
    congr 1
    omega
  have hdiv : (2 ^ (size * 8) - 2 ^ ((size - narrow) * 8)) >>> ((size - narrow) * 8) =
      2 ^ (narrow * 8) - 1 := by
    rw [Nat.shiftRight_eq_div_pow]
    have hfact : 2 ^ (size * 8) - 2 ^ ((size - narrow) * 8) =
        (2 ^ (narrow * 8) - 1) * 2 ^ ((size - narrow) * 8) := hshlval.symm
    rw [hfact, Nat.mul_div_cancel _ (Nat.pos_pow_of_pos _ (by norm_num))]
  have hnotlt : ¬ (2 ^ (size * 8) - 2 ^ ((size - narrow) * 8) < 2 ^ (size * 8 - 1)) := by
    omega
  have hws : size * 8 - (size - narrow) * 8 = narrow * 8 := by omega
  simp only [CreateRawMask, hs, if_true, hmask, hshl, ashr, hnotlt, if_false, hdiv, hws]
  have h1 : 2 ^ (narrow * 8) ≤ 2 ^ (size * 8) :=
    Nat.pow_le_pow_right (by norm_num) (by omega)
  have h2 : 0 < 2 ^ (narrow * 8) := Nat.pos_pow_of_pos _ (by norm_num)
  omega

/-! ## Claim C1 -/

/-- C1 (counterexample): with logical kind S32 and raw kind S8 the raw width
(1 byte) is narrower than the logical width (4 bytes), yet `ConvertData`
does not abort — it returns a (masked) value — while in the opposite
configuration (logical S8, raw S32), where the raw kind is the wider one,
the fatal width check fires.  The claimed precondition direction is the
reverse of the one the code enforces. -/
theorem C1_counterexample :
    byteSize .S8 < byteSize .S32 ∧
    ConvertData 5 .S32 .S8 = some 5 ∧
    ConvertData 5 .S8 .S32 = none := by
  decide

/-- C1 (amended): for integral logical and raw kinds the fatal
`XLA_CHECK_GE(size, narrow_size)` in `ConvertData` (as invoked by
`ConvertToRaw`) enforces that the logical width is at least the raw width:
whenever the raw kind passed as the narrow argument is strictly wider than
the logical kind, the call aborts and never returns a value. -/
theorem C1_convert_data_fatal (v : Nat) (ty narrow_ty : PrimitiveType)
    (h1 : isIntegralType ty = true) (h2 : isIntegralType narrow_ty = true)
    (h : byteSize ty < byteSize narrow_ty) :
    ConvertData v ty narrow_ty = none := by
  simp only [ConvertData, h1, h2, Bool.and_self, Bool.not_true,
    Bool.false_eq_true, if_false, if_pos h]

/-- C1 (witness): concrete instance of the amended theorem at kinds U8/U64. -/
theorem C1_witness :
    (isIntegralType .U8 = true ∧ isIntegralType .U64 = true ∧
      byteSize .U8 < byteSize .U64) ∧
    ConvertData 7 .U8 .U64 = none :=
  ⟨by decide, C1_convert_data_fatal 7 .U8 .U64 (by decide) (by decide) (by decide)⟩

/-! ## Claim C4 -/

/-- C4 (counterexample): take logical kind S8 and raw kind S32 — a pair with
raw width ≥ logical width, as the claim assumes — and the value 0, whose
narrow representation is valid.  Masking with `ConvertData` in either kind
order followed by the swapped call hits the fatal width check and aborts, so
the claimed round trip never returns the original value. -/
theorem C4_counterexample :
    byteSize .S8 ≤ byteSize .S32 ∧
    validRep .S32 .S8 0 = true ∧
    ConvertData 0 .S8 .S32 = none ∧
    (ConvertData 0 .S32 .S8).bind (fun w => ConvertData w .S8 .S32) = none := by
  decide

/-- C4 (amended): for integral kind pairs with logical width ≥ raw width (the
direction the fatal check admits) and any value whose narrow-width
representation is valid, the masking of `ConvertData` returns the value
unchanged — for a signed logical kind because the all-ones mask of the
narrow width, left-shifted to the top of the width and arithmetically
shifted back, becomes the all-ones mask of the full width — and hence
applying the masking twice round-trips the value.  (The swapped kind order
of the original claim instead fails the width check, see the
counterexample.) -/
theorem C4_mask_roundtrip (v : Nat) (ty narrow_ty : PrimitiveType)
    (h1 : isIntegralType ty = true) (h2 : isIntegralType narrow_ty = true)
    (hw : byteSize narrow_ty ≤ byteSize ty)
    (hv : validRep ty narrow_ty v = true) :
    ConvertData v ty narrow_ty = some v ∧
    (ConvertData v ty narrow_ty).bind (fun w => ConvertData w ty narrow_ty) = some v := by
  have hnl : ¬ byteSize ty < byteSize narrow_ty := by omega
  have key : ConvertData v ty narrow_ty = some v := by
    by_cases hsz : byteSize ty = byteSize narrow_ty
    · simp only [ConvertData, h1, h2, Bool.and_self, Bool.not_true,
        Bool.false_eq_true, if_false, if_neg hnl, if_pos hsz]
    · have hlt : byteSize narrow_ty < byteSize ty := by omega
      simp only [ConvertData, h1, h2, Bool.and_self, Bool.not_true,
        Bool.false_eq_true, if_false, if_neg hnl, if_neg hsz, Option.some.injEq]
      by_cases hsig : isSignedIntegralType ty = true
      · rw [createRawMask_signed ty hsig _ _ hlt (byteSize_pos narrow_ty)]
        rw [Nat.and_pow_two_sub_one_eq_mod]
        simp only [validRep, hsig, if_true, Bool.and_eq_true, decide_eq_true_eq] at hv
        exact Nat.mod_eq_of_lt hv.1
      · have hsig' : isSignedIntegralType ty = false := by
          revert hsig
          cases isSignedIntegralType ty <;> simp
        rw [createRawMask_unsigned ty hsig' _ _ hlt]
        rw [Nat.and_pow_two_sub_one_eq_mod]
        simp only [validRep, hsig', Bool.false_eq_true, if_false,
          decide_eq_true_eq] at hv
        exact Nat.mod_eq_of_lt hv
  exact ⟨key, by simp [key]⟩

/-- C4 (witness): concrete instances of the amended theorem — an unsigned
pair U32/U8 with a zero-extended value and a signed pair S32/S8 with a
sign-extended negative value. -/
theorem C4_witness :
    (byteSize .U8 ≤ byteSize .U32 ∧ validRep .U32 .U8 5 = true ∧
      ConvertData 5 .U32 .U8 = some 5) ∧
    (byteSize .S8 ≤ byteSize .S32 ∧ validRep .S32 .S8 0xFFFFFF85 = true ∧
      ConvertData 0xFFFFFF85 .S32 .S8 = some 0xFFFFFF85) :=
  ⟨⟨by decide, by decide,
      (C4_mask_roundtrip 5 .U32 .U8 (by decide) (by decide) (by decide) (by decide)).1⟩,
   ⟨by decide, by decide,
      (C4_mask_roundtrip 0xFFFFFF85 .S32 .S8 (by decide) (by decide) (by decide) (by decide)).1⟩⟩

/-! ## Claim C2 -/

/-- C2 (counterexample): with an oracle honouring the uniform-range contract
(the midpoint draw for `lower = 1/4`, `upper = 1/2`), training-mode
`BuildRrelu` on the positive input `[2]` returns the noise tensor `[1]`:
the source sets the noise to one — not to the drawn uniform value — wherever
the input is positive, so the returned noise value lies outside
`[lower, upper]`, refuting the claim that every value of the returned noise
tensor lies within `[lower, upper]`. -/
theorem C2_counterexample :
    ((1 : ℚ)/4 ≤ midRng (1/4) (1/2) ∧ midRng (1/4) (1/2) ≤ 1/2) ∧
    (Sem.BuildRrelu [2] (1/4) (1/2) true midRng).2 = [1] ∧
    ¬ ((1 : ℚ)/4 ≤ 1 ∧ (1 : ℚ) ≤ 1/2) := by
  refine ⟨⟨by norm_num [midRng], by norm_num [midRng]⟩, ?_, by norm_num⟩
  norm_num [Sem.BuildRrelu]

/-- C2 (amended): in training mode `BuildRrelu` draws a single uniform value
in `[lower, upper]` from the supplied seed (the call site passes a rank-0
shape, so one draw is shared by all elements); the returned noise tensor
holds `1` where the input is positive and the drawn slope elsewhere (thus
each noise value is either `1` or lies within `[lower, upper]`), and the
output is `input * noise`, i.e. `x > 0 ? x : slope * x`.  In evaluation mode
the noise tensor is all-zero and the output is the fixed-slope leaky ReLU
with slope `(lower + upper)/2`. -/
theorem C2_rrelu (input : List ℚ) (lower upper : ℚ) (rng : ℚ → ℚ → ℚ)
    (hlo : lower ≤ rng lower upper) (hhi : rng lower upper ≤ upper) :
    ((Sem.BuildRrelu input lower upper true rng).2 =
        input.map (fun x => if 0 < x then 1 else rng lower upper) ∧
      (∀ n ∈ (Sem.BuildRrelu input lower upper true rng).2,
        n = 1 ∨ (lower ≤ n ∧ n ≤ upper)) ∧
      (Sem.BuildRrelu input lower upper true rng).1 =
        input.map (fun x => if 0 < x then x else rng lower upper * x)) ∧
    ((Sem.BuildRrelu input lower upper false rng).2 =
        input.map (fun _ => 0) ∧
      (Sem.BuildRrelu input lower upper false rng).1 =
        input.map (fun x => if 0 < x then x else (lower + upper) / 2 * x)) := by
  refine ⟨⟨rfl, ?_, ?_⟩, rfl, ?_⟩
  · intro n hn
    simp only [Sem.BuildRrelu, if_pos, List.mem_map] at hn
    obtain ⟨x, _, hx⟩ := hn
    by_cases hpos : 0 < x
    · left
      rw [← hx, if_pos hpos]
    · right
      rw [← hx, if_neg hpos]
      exact ⟨hlo, hhi⟩
  · show List.zipWith (· * ·) input
        (input.map (fun x => if 0 < x then 1 else rng lower upper)) = _
    rw [List.zipWith_map_right, List.zipWith_same]
    apply List.map_congr_left
    intro x _
    by_cases hpos : 0 < x
    · rw [if_pos hpos, if_pos hpos, mul_one]
    · rw [if_neg hpos, if_neg hpos, mul_comm]
  · show input.map (fun x => Sem.BuildLeakyRelu x ((lower + upper) / 2)) = _
    apply List.map_congr_left
    intro x _
    rfl

/-- C2 (witness): concrete instance of the amended theorem with
`input = [2, -2]`, `lower = 1/4`, `upper = 1/2` and the midpoint oracle. -/
theorem C2_witness :
    (Sem.BuildRrelu [2, -2] (1/4) (1/2) true midRng).2 = [1, 3/8] ∧
    (Sem.BuildRrelu [2, -2] (1/4) (1/2) true midRng).1 = [2, -(3/4)] ∧
    (Sem.BuildRrelu [2, -2] (1/4) (1/2) false midRng).1 = [2, -(3/4)] := by
  have h := C2_rrelu [2, -2] (1/4) (1/2) midRng (by norm_num [midRng])
    (by norm_num [midRng])
  refine ⟨?_, ?_, ?_⟩
  · rw [h.1.1]; norm_num [midRng]
  · rw [h.1.2.2]; norm_num [midRng]
  · rw [h.2.2]; norm_num

/-! ## Claim C3 -/

/-- C3 (counterexample): at the boundary input `-3` the source's hard-swish
backward formula takes the middle branch — its `[-3,3]` membership predicate
`Between` is built from `ge`/`le`, non-strict at both boundaries — yielding
`1 * (0.5 + (-3)/3) = -1/2` for `grad_output = 1`, whereas the claimed
strict predicate (`>-3`, `<3`) would yield `0`. -/
theorem C3_counterexample :
    Sem.BuildHardSwishBackward 1 (-3) = -(1/2) ∧
    Sem.specStrictHardSwishBackward 1 (-3) = 0 ∧
    Sem.BuildHardSwishBackward 1 (-3) ≠ Sem.specStrictHardSwishBackward 1 (-3) := by
  have h1 : Sem.BuildHardSwishBackward 1 (-3) = -(1/2) := by
    norm_num [Sem.BuildHardSwishBackward, Sem.Between]
  have h2 : Sem.specStrictHardSwishBackward 1 (-3) = 0 := by
    norm_num [Sem.specStrictHardSwishBackward]
  exact ⟨h1, h2, by rw [h1, h2]; norm_num⟩

/-- C3 (amended): the hard-swish backward formula selects the unmodified
grad_output where `input ≥ 3` (non-strict, as claimed), and the `[-3,3]`
membership predicate of the middle branch is likewise non-strict at both
boundaries (`≥ -3` and `≤ 3`): the result is `grad_output` if `input ≥ 3`,
else `grad_output * (0.5 + input/3)` if `-3 ≤ input ≤ 3`, else `0`. -/
theorem C3_hardswish_backward_boundaries (grad_output input : ℚ) :
    Sem.BuildHardSwishBackward grad_output input =
      if 3 ≤ input then grad_output
      else if -3 ≤ input ∧ input ≤ 3 then grad_output * (1/2 + input / 3)
      else 0 := by
  simp only [Sem.BuildHardSwishBackward, Sem.Between, Bool.and_eq_true,
    decide_eq_true_eq]

/-! ## Claim C5 -/

/-- C5: `BuildLogit` yields NaN exactly for inputs outside `[0,1]` (`x < 0`
or `x > 1`); for inputs inside `[0,1]` it yields `log(c/(1-c))` where `c` is
the input clamped to `[eps, 1-eps]` when `eps` is supplied and the input
itself otherwise; being a total function it never aborts — out-of-domain
inputs are encoded into the numeric result as NaN, not signalled as
errors. -/
theorem C5_logit (logf : ℚ → ℚ) (input : ℚ) (eps : Option ℚ) :
    (Sem.BuildLogit logf input eps = Sem.SVal.nan ↔ (input < 0 ∨ 1 < input)) ∧
    (∀ e, eps = some e → 0 ≤ input → input ≤ 1 →
      Sem.BuildLogit logf input eps =
        Sem.SVal.num (logf (min (max input e) (1 - e) /
          (1 - min (max input e) (1 - e))))) ∧
    (eps = none → 0 ≤ input → input ≤ 1 →
      Sem.BuildLogit logf input none =
        Sem.SVal.num (logf (input / (1 - input)))) := by
  refine ⟨?_, ?_, ?_⟩
  · simp only [Sem.BuildLogit]
    split_ifs with h
    · simp only [Bool.or_eq_true, decide_eq_true_eq] at h
      exact iff_of_true rfl h
    · simp only [Bool.or_eq_true, decide_eq_true_eq, not_or] at h
      exact iff_of_false (by simp) (by tauto)
  · intro e he h0 h1
    subst he
    have hb : (decide (input < 0) || decide (1 < input)) = false := by
      simp [not_lt.mpr h0, not_lt.mpr h1]
    simp only [Sem.BuildLogit, hb, Bool.false_eq_true, if_false]
  · intro he h0 h1
    have hb : (decide (input < 0) || decide (1 < input)) = false := by
      simp [not_lt.mpr h0, not_lt.mpr h1]
    simp only [Sem.BuildLogit, hb, Bool.false_eq_true, if_false,
      Sem.SVal.num.injEq]
    norm_num [max_eq_left h0, min_eq_left h1]

/-- C5 (witness): concrete instances — the out-of-domain input 2 maps to NaN
and the in-domain input 1/2 with no eps maps to `log((1/2)/(1 - 1/2))`. -/
theorem C5_witness :
    Sem.BuildLogit id 2 none = Sem.SVal.nan ∧
    Sem.BuildLogit id (1/2) none = Sem.SVal.num (id ((1/2 : ℚ) / (1 - 1/2))) :=
  ⟨(C5_logit id 2 none).1.mpr (Or.inr (by norm_num)),
   (C5_logit id (1/2) none).2.2 rfl (by norm_num) (by norm_num)⟩

/-! ## Claim C6 -/

/-- C6: `BuildComparisonOp` first promotes its two operands to one common
kind, then dispatches each of the six recognised tags (not-equal, equal,
greater-or-equal, less-or-equal, greater-than, less-than) to the matching
primitive comparison instruction carrying the broadcast dimensions; every
other tag hits the fatal `XLA_ERROR()` default and never returns a value. -/
theorem C6_comparison_dispatch (kind : CmpSymbol) (lhs rhs : XlaOp) :
    BuildComparisonOp kind lhs rhs =
      (cmpDispatch kind).map (fun d =>
        XlaOp.cmp d (Promote lhs rhs).1 (Promote lhs rhs).2
          (getBroadcastDimensions (Promote lhs rhs).1 (Promote lhs rhs).2)) ∧
    tyOf (Promote lhs rhs).1 = tyOf (Promote lhs rhs).2 ∧
    ((BuildComparisonOp kind lhs rhs).isNone = true ↔ ∃ i, kind = CmpSymbol.other i) := by
  refine ⟨?_, ?_, ?_⟩
  · cases kind <;> rfl
  · show tyOf (MaybeConvertTo lhs (promoteKind (tyOf lhs) (tyOf rhs))) =
      tyOf (MaybeConvertTo rhs (promoteKind (tyOf lhs) (tyOf rhs)))
    rw [tyOf_MaybeConvertTo, tyOf_MaybeConvertTo]
  · constructor
    · intro h
      cases kind with
      | other i => exact ⟨i, rfl⟩
      | ne => simp [BuildComparisonOp] at h
      | eq => simp [BuildComparisonOp] at h
      | ge => simp [BuildComparisonOp] at h
      | le => simp [BuildComparisonOp] at h
      | gt => simp [BuildComparisonOp] at h
      | lt => simp [BuildComparisonOp] at h
    · rintro ⟨i, rfl⟩
      rfl

/-! ## Claim C7 -/

/-- C7: `ConvertTo` with equal source and target kind returns its input
itself — the same graph value, so no conversion instruction is emitted —
while with distinct kinds it emits exactly one element-type-conversion
instruction on top of its operand. -/
theorem C7_convert_identity (op : XlaOp) (k fromTy toTy : PrimitiveType) :
    ConvertTo op k k = op ∧
    (fromTy ≠ toTy →
      ConvertTo op fromTy toTy = XlaOp.convert op toTy ∧
      convertCount (ConvertTo op fromTy toTy) = convertCount op + 1) := by
  constructor
  · simp [ConvertTo]
  · intro h
    simp [ConvertTo, h, convertCount]

/-- C7 (witness): concrete instance — identity conversion of an F32
parameter emits nothing, while F32 to F64 emits exactly one conversion. -/
theorem C7_witness :
    ConvertTo (XlaOp.param 0 .F32 []) .F32 .F32 = XlaOp.param 0 .F32 [] ∧
    ConvertTo (XlaOp.param 0 .F32 []) .F32 .F64 =
      XlaOp.convert (XlaOp.param 0 .F32 []) .F64 ∧
    convertCount (ConvertTo (XlaOp.param 0 .F32 []) .F32 .F64) = 1 := by
  have h := C7_convert_identity (XlaOp.param 0 .F32 []) .F32 .F32 .F64
  have h2 := h.2 (by decide)
  exact ⟨h.1, h2.1, by rw [h2.2]; rfl⟩

/-! ## Claim C8 -/

/-- C8: `BuildSign` returns 0 at every position where the input is NaN
(`x != x`); elsewhere it returns the primitive sign, except that for an
unsigned integral kind it returns `x > 0` converted back to the kind; hence
the signed input [-3, 0, 4] yields [-1, 0, 1] and the unsigned input [0, 5]
yields [0, 1]. -/
theorem C8_sign (dev ty : PrimitiveType) (x : Sem.SVal) :
    (x = Sem.SVal.nan → Sem.BuildSign dev ty x = Sem.SVal.num 0) ∧
    (∀ q : ℚ, x = Sem.SVal.num q →
      Sem.BuildSign dev ty x =
        (if isUnsignedIntegralType (Sem.convertToNumericKind dev ty) then
          (if 0 < q then Sem.SVal.num 1 else Sem.SVal.num 0)
        else Sem.primSign (Sem.SVal.num q))) ∧
    ([(-3 : ℚ), 0, 4].map (fun q => Sem.BuildSign dev .S32 (.num q)) =
      [.num (-1), .num 0, .num 1]) ∧
    ([(0 : ℚ), 5].map (fun q => Sem.BuildSign dev .U32 (.num q)) =
      [.num 0, .num 1]) := by
  refine ⟨?_, ?_, ?_, ?_⟩
  · intro hx
    subst hx
    rfl
  · intro q hx
    subst hx
    have hd : Sem.svalNe (Sem.SVal.num q) (Sem.SVal.num q) = false := by
      simp [Sem.svalNe, Sem.svalEq]
    simp only [Sem.BuildSign, hd, Bool.false_eq_true, if_false, Sem.svalGt,
      decide_eq_true_eq]
  · have hk : Sem.convertToNumericKind dev .S32 = .S32 := rfl
    norm_num [Sem.BuildSign, hk, isUnsignedIntegralType, Sem.svalNe,
      Sem.svalEq, Sem.svalGt, Sem.primSign]
  · have hk : Sem.convertToNumericKind dev .U32 = .U32 := rfl
    norm_num [Sem.BuildSign, hk, isUnsignedIntegralType, Sem.svalNe,
      Sem.svalEq, Sem.svalGt, Sem.primSign]

/-- C8 (witness): concrete instances — a NaN float maps to 0, and the
unsigned value 5 maps to 1. -/
theorem C8_witness :
    Sem.BuildSign .U8 .F32 .nan = Sem.SVal.num 0 ∧
    Sem.BuildSign .U8 .U32 (.num 5) = Sem.SVal.num 1 := by
  have h1 := (C8_sign .U8 .F32 Sem.SVal.nan).1 rfl
  have h2 := (C8_sign .U8 .U32 (Sem.SVal.num 5)).2.1 5 rfl
  refine ⟨h1, ?_⟩
  rw [h2]
  have hk : Sem.convertToNumericKind .U8 .U32 = .U32 := rfl
  norm_num [hk, isUnsignedIntegralType]

/-! ## Claim C9 -/

/-- C9 (counterexample): `BuildSoftplus` applies the primitive multiplication
`input * beta` and the comparison against `threshold` without first
converting the auxiliary operands to the input's element kind: with an F32
input and F64 beta/threshold the emitted graph contains a multiplication
whose operands have different kinds — refuting the claim that every operator
with an auxiliary scalar-like operand normalises kinds before any primitive
instruction combines the two. -/
theorem C9_counterexample :
    wellKinded (BuildSoftplus (XlaOp.param 0 .F32 []) (XlaOp.param 1 .F64 [])
      (XlaOp.param 2 .F64 [])) = false ∧
    BuildSoftplus (XlaOp.param 0 .F32 []) (XlaOp.param 1 .F64 [])
        (XlaOp.param 2 .F64 []) =
      XlaOp.select
        (XlaOp.cmp .gt
          (XlaOp.mul (XlaOp.param 0 .F32 []) (XlaOp.param 1 .F64 []))
          (XlaOp.param 2 .F64 []) [])
        (XlaOp.param 0 .F32 [])
        (XlaOp.div
          (XlaOp.log1p (XlaOp.exp
            (XlaOp.mul (XlaOp.param 0 .F32 []) (XlaOp.param 1 .F64 []))))
          (XlaOp.param 1 .F64 [])) ∧
    tyOf (XlaOp.param 0 .F32 []) ≠ tyOf (XlaOp.param 1 .F64 []) := by
  refine ⟨rfl, rfl, by decide⟩

/-- C9 (amended): operators that normalise their auxiliary operand with
`MaybeConvertTo` before combining — `BuildLeakyReluBackward` is the cited
representative — do establish the invariant: whatever the slope operand's
kind, every primitive arithmetic and comparison instruction in the emitted
graph combines operands of one identical kind.  `BuildSoftplus` is an
exception (see the counterexample): it applies no conversion to beta or
threshold. -/
theorem C9_leaky_relu_backward_well_kinded
    (grad_output input negative_slope : XlaOp)
    (hg : wellKinded grad_output = true) (hi : wellKinded input = true)
    (hs : wellKinded negative_slope = true)
    (hty : tyOf grad_output = tyOf input) :
    wellKinded (BuildLeakyReluBackwardOp grad_output input negative_slope) = true := by
  have h1 : tyOf (MaybeConvertTo negative_slope (tyOf input)) = tyOf input :=
    tyOf_MaybeConvertTo _ _
  have h2 : wellKinded (MaybeConvertTo negative_slope (tyOf input)) = true := by
    rw [wellKinded_MaybeConvertTo]
    exact hs
  simp [BuildLeakyReluBackwardOp, wellKinded, tyOf, hg, hi, h1, h2, hty]

/-- C9 (witness): concrete instance of the amended theorem with an F64 slope
against F32 grad/input. -/
theorem C9_witness :
    wellKinded (BuildLeakyReluBackwardOp (XlaOp.param 0 .F32 [])
      (XlaOp.param 1 .F32 []) (XlaOp.param 2 .F64 [])) = true :=
  C9_leaky_relu_backward_well_kinded _ _ _ rfl rfl rfl rfl

/-! ## Claim C10 -/

/-- C10: `BuildAbs` returns its input itself unchanged — emitting no
absolute-value instruction — whenever the input's element kind is unsigned
integral, and returns the primitive absolute value applied to the input for
every other kind. -/
theorem C10_abs_unsigned_passthrough (input : XlaOp) :
    (isUnsignedIntegralType (tyOf input) = true →
      BuildAbs input = input ∧ absCount (BuildAbs input) = absCount input) ∧
    (isUnsignedIntegralType (tyOf input) = false →
      BuildAbs input = XlaOp.absOp input) := by
  constructor <;> intro h <;> simp [BuildAbs, h]

/-- C10 (witness): concrete instances — a U32 parameter passes through, an
F32 parameter gets the absolute-value instruction. -/
theorem C10_witness :
    BuildAbs (XlaOp.param 0 .U32 []) = XlaOp.param 0 .U32 [] ∧
    BuildAbs (XlaOp.param 1 .F32 []) = XlaOp.absOp (XlaOp.param 1 .F32 []) :=
  ⟨((C10_abs_unsigned_passthrough (XlaOp.param 0 .U32 [])).1 rfl).1,
   (C10_abs_unsigned_passthrough (XlaOp.param 1 .F32 [])).2 rfl⟩

end TorchXla
